import Mathlib

/-!
# Shallow embedding of the llm-council-plus frontend core

This file embeds, in Lean, the council-session presentation and settings
logic of the repository's frontend components:

* `frontend/src/components/Stage2.jsx` — `getShortModelName`,
  `deAnonymizeText`, and the active-tab clamping effect;
* the Stage1 component (same active-tab clamping effect);
* `frontend/src/components/Settings.jsx` — the council-roster editing
  handlers, the chairman model list, and `handleSave`.

JavaScript strings are modelled as Lean `String` (a wrapper around
`List Char`), JS arrays as Lean `List`, and nullable values as `Option`.
Where a JS operation's exact semantics matter (e.g. `Array.prototype`
index assignment past the end, or `String.prototype.split`), the JS
behaviour is reproduced, not idealised; each definition's doc comment
records the JS source line it embeds.
-/

namespace LLMCouncil

/-- JS `str.split(sep)` for a single-character separator, on the character
list of the string.  Mirrors ECMAScript semantics for a non-empty
separator: `"a/b/c".split('/') = ["a","b","c"]`, `"a/".split('/') =
["a",""]`, `"".split('/') = [""]`. -/
def jsSplit (sep : Char) : List Char → List (List Char)
  | [] => [[]]
  | c :: cs =>
    if c = sep then
      [] :: jsSplit sep cs
    else
      match jsSplit sep cs with
      | s :: rest => (c :: s) :: rest
      | [] => [[c]]

/-- `getShortModelName` from `Stage2.jsx` lines 6–16.

```js
function getShortModelName(modelId) {
  if (!modelId) return 'Unknown';
  let displayName = modelId;
  if (modelId.includes('/')) {
    displayName = modelId.split('/')[1] || modelId;
  } else if (modelId.includes(':')) {
    displayName = modelId.split(':')[1] || modelId;
  }
  return displayName;
}
```

`none` models JS `null`/`undefined`; `!modelId` is true for those and for
the empty string.  `split(sep)[1] || modelId` falls back to the whole id
when element 1 is absent (`none` case) or the empty string (falsy). -/
def getShortModelName (modelId : Option String) : String :=
  match modelId with
  | none => "Unknown"
  | some s =>
    if s = "" then "Unknown"
    else if s.data.contains '/' then
      match (jsSplit '/' s.data).get? 1 with
      | some seg => if seg = [] then s else ⟨seg⟩
      | none => s
    else if s.data.contains ':' then
      match (jsSplit ':' s.data).get? 1 with
      | some seg => if seg = [] then s else ⟨seg⟩
      | none => s
    else s

/-- The replacement string `**${modelShortName}**` built in
`deAnonymizeText` (`Stage2.jsx` line 25). -/
def boldShortName (modelId : String) : String :=
  "**" ++ getShortModelName (some modelId) ++ "**"

/-- One pass of JS `str.replace(new RegExp(pat, 'g'), rep)` for a
metacharacter-free, non-empty pattern `pat`: scan left to right, replace
each non-overlapping occurrence of `pat`, and continue after the end of
the match.  The labels fed to this function in `Stage2.jsx` (`"Response
A"`, …) contain no regex metacharacters, so literal matching is the JS
behaviour.  `fuel` is a structural-recursion bound; every step consumes
at least one input character, so `fuel = input length` never runs out. -/
def replaceSubAux (pat rep : List Char) : Nat → List Char → List Char
  | _, [] => []
  | 0, l => l
  | fuel + 1, c :: cs =>
    if pat ≠ [] ∧ pat.isPrefixOf (c :: cs) then
      rep ++ replaceSubAux pat rep fuel (List.drop (pat.length - 1) cs)
    else
      c :: replaceSubAux pat rep fuel cs

/-- JS `s.replace(new RegExp(pat, 'g'), rep)` for a metacharacter-free,
non-empty `pat` (see `replaceSubAux`). -/
def replaceAllSub (s pat rep : String) : String :=
  ⟨replaceSubAux pat.data rep.data s.data.length s.data⟩

/-- `deAnonymizeText` from `Stage2.jsx` lines 18–28.

```js
function deAnonymizeText(text, labelToModel) {
  if (!labelToModel) return text;
  let result = text;
  Object.entries(labelToModel).forEach(([label, model]) => {
    const modelShortName = getShortModelName(model);
    result = result.replace(new RegExp(label, 'g'), `**${modelShortName}**`);
  });
  return result;
}
```

The mapping is modelled as an ordered association list (JS
`Object.entries` yields string keys in insertion order); `none` models a
missing `labelToModel`. -/
def deAnonymizeText (text : String) (labelToModel : Option (List (String × String))) :
    String :=
  match labelToModel with
  | none => text
  | some m =>
    m.foldl (fun result p => replaceAllSub result p.1 (boldShortName p.2)) text

/-- Modelled from the spec: "Short-name derivation: if the id contains a
`/`, take the substring after the first `/`; else if it contains a `:`,
take the substring after the first `:`; else use the id unchanged; an
empty or missing id yields the literal string \"Unknown\"."  The helper
`afterFirstChar` is literally "the substring after the first occurrence
of the character".  This definition follows the spec's words and exists
only to be compared with `getShortModelName`, which embeds the code. -/
def afterFirstChar (sep : Char) : List Char → List Char
  | [] => []
  | c :: cs => if c = sep then cs else afterFirstChar sep cs

/-- Modelled from the spec (see `afterFirstChar`): the spec's short-name
derivation, to be compared with the code's `getShortModelName`. -/
def specShortModelName (modelId : Option String) : String :=
  match modelId with
  | none => "Unknown"
  | some s =>
    if s = "" then "Unknown"
    else if s.data.contains '/' then ⟨afterFirstChar '/' s.data⟩
    else if s.data.contains ':' then ⟨afterFirstChar ':' s.data⟩
    else s

/-- The active-tab reset effect of the Stage1 component, lines 11–15:

```js
useEffect(() => {
  if (responses && responses.length > 0 && activeTab >= responses.length) {
    setActiveTab(responses.length - 1);
  }
}, [responses, activeTab]);
```

Given the backing collection (`none` models a null prop) and the current
`activeTab`, returns the `activeTab` after the effect has run.  The
effect re-runs whenever `responses` or `activeTab` changes, so this
function is applied at every update of the collection. -/
def stage1ResetActiveTab {α : Type} (responses : Option (List α)) (activeTab : Nat) :
    Nat :=
  match responses with
  | none => activeTab
  | some rs =>
    if 0 < rs.length ∧ rs.length ≤ activeTab then rs.length - 1 else activeTab

/-- The active-tab reset effect of `Stage2.jsx` lines 34–38 — identical
logic to the Stage1 component, over the `rankings` collection. -/
def stage2ResetActiveTab {α : Type} (rankings : Option (List α)) (activeTab : Nat) :
    Nat :=
  match rankings with
  | none => activeTab
  | some rs =>
    if 0 < rs.length ∧ rs.length ≤ activeTab then rs.length - 1 else activeTab

/-! ## Settings.jsx -/

/-- A catalog entry (`Model` in the data model): id, display name, and the
free/paid flag, as consumed by `Settings.jsx`. -/
structure Model where
  id : String
  name : String
  is_free : Bool
deriving DecidableEq, Repr

/-- `Settings.jsx` line 169: `const chairmanModels =
availableModels.filter(m => !m.is_free);`. -/
def chairmanModels (availableModels : List Model) : List Model :=
  availableModels.filter (fun m => !m.is_free)

/-- A rendered `<option>`: its `value` attribute and its visible label. -/
structure SelectOption where
  value : String
  label : String
deriving DecidableEq, Repr

/-- The `<option>` list rendered inside the chairman `<select>`
(`Settings.jsx` lines 510–522): one option per entry of `chairmanModels`,
plus — only when the current `chairmanModel` matches no entry of
`chairmanModels` — a final option for the current value, labelled
`{availableModels.find(m => m.id === chairmanModel)?.name ||
chairmanModel} (not recommended)`. -/
def chairmanOptionList (availableModels : List Model) (chairmanModel : String) :
    List SelectOption :=
  (chairmanModels availableModels).map (fun m => ⟨m.id, m.name⟩) ++
    (if ((chairmanModels availableModels).find? (fun m => m.id == chairmanModel)).isNone
     then
       [⟨chairmanModel,
         (match availableModels.find? (fun m => m.id == chairmanModel) with
          | some m => if m.name = "" then chairmanModel else m.name
          | none => chairmanModel) ++ " (not recommended)"⟩]
     else [])

/-- A JS array element that is either a string or the JS `undefined`
hole, as produced by assigning past the end of an array. -/
inductive JsVal where
  | str : String → JsVal
  | undef : JsVal
deriving DecidableEq, Repr

/-- `handleCouncilModelChange` from `Settings.jsx` lines 143–149:

```js
setCouncilModels(prev => {
  const updated = [...prev];
  updated[index] = modelId;
  return updated;
});
```

JS index assignment within bounds overwrites the element; assignment at
`index >= prev.length` extends the array to `index + 1` elements,
filling the skipped positions with holes (read back as `undefined`). -/
def handleCouncilModelChange (prev : List JsVal) (index : Nat) (modelId : String) :
    List JsVal :=
  if index < prev.length then prev.set index (JsVal.str modelId)
  else prev ++ List.replicate (index - prev.length) JsVal.undef ++ [JsVal.str modelId]

/-- `handleRemoveCouncilMember` from `Settings.jsx` lines 160–162:
`setCouncilModels(prev => prev.filter((_, i) => i !== index));`. -/
def handleRemoveCouncilMember (prev : List String) (index : Nat) : List String :=
  (prev.enum.filter (fun p => p.1 ≠ index)).map (fun p => p.2)

/-- The `disabled` attribute of each remove-member button,
`Settings.jsx` line 478: `disabled={councilModels.length <= 1}`. -/
def removeMemberDisabled (councilModels : List String) : Bool :=
  councilModels.length ≤ 1

/-- A click on the remove-member button at `index`: a disabled button
fires no handler, so the roster is unchanged; otherwise
`handleRemoveCouncilMember` runs. -/
def clickRemoveMember (councilModels : List String) (index : Nat) : List String :=
  if removeMemberDisabled councilModels then councilModels
  else handleRemoveCouncilMember councilModels index

/-- The draft settings state held by the Settings component (the
`useState` hooks of `Settings.jsx` lines 30–49 that `handleSave`
reads or writes). -/
structure SettingsState where
  selectedProvider : String
  fullContentResults : Nat
  tavilyApiKey : String
  braveApiKey : String
  openrouterApiKey : String
  councilModels : List String
  chairmanModel : String
  isSaving : Bool
  error : Option String
  success : Bool
deriving DecidableEq, Repr

/-- The payload of `api.updateSettings` built by `handleSave`
(`Settings.jsx` lines 187–205): four fields always present, three secret
fields present only conditionally (`none` = key absent from the JS
object). -/
structure UpdatePayload where
  search_provider : String
  full_content_results : Nat
  council_models : List String
  chairman_model : String
  tavily_api_key : Option String
  brave_api_key : Option String
  openrouter_api_key : Option String
deriving DecidableEq, Repr

/-- JS `s.startsWith(c)` for a one-character prefix `c`: true exactly
when the first character of `s` is `c`. -/
def jsStartsWithChar (s : String) (c : Char) : Bool :=
  match s.data with
  | [] => false
  | d :: _ => d = c

/-- The `updates` object built by `handleSave` (`Settings.jsx` lines
187–205): the four non-secret fields unconditionally, and each API key
only when its buffer is truthy (non-empty) and does not start with the
bullet character: `if (tavilyApiKey && !tavilyApiKey.startsWith('•'))`. -/
def buildUpdates (st : SettingsState) : UpdatePayload :=
  { search_provider := st.selectedProvider
    full_content_results := st.fullContentResults
    council_models := st.councilModels
    chairman_model := st.chairmanModel
    tavily_api_key :=
      if st.tavilyApiKey ≠ "" ∧ jsStartsWithChar st.tavilyApiKey '•' = false
      then some st.tavilyApiKey else none
    brave_api_key :=
      if st.braveApiKey ≠ "" ∧ jsStartsWithChar st.braveApiKey '•' = false
      then some st.braveApiKey else none
    openrouter_api_key :=
      if st.openrouterApiKey ≠ "" ∧ jsStartsWithChar st.openrouterApiKey '•' = false
      then some st.openrouterApiKey else none }

/-- The masked placeholder shown for a configured key (`Settings.jsx`
lines 279, 320, 387): sixteen bullet characters. -/
def maskPlaceholder : String := "••••••••••••••••"

/-- Modelled from the spec: "only fields in `editing` state (non-empty,
not equal to the masking placeholder sentinel) are included in the
update payload".  Whether a secret buffer is included, by the spec's
words; to be compared with the condition in `buildUpdates`. -/
def specIncludesSecret (buf : String) : Bool :=
  buf ≠ "" && buf ≠ maskPlaceholder

/-- The `disabled` attribute of the save button, `Settings.jsx` line
535: `disabled={isSaving || councilModels.length === 0}`. -/
def saveButtonDisabled (st : SettingsState) : Bool :=
  st.isSaving || st.councilModels.length == 0

/-- A click on the save button: a disabled button fires no handler, so
no `api.updateSettings` call is issued (`none`); otherwise `handleSave`
runs and sends `buildUpdates st`. -/
def clickSave (st : SettingsState) : Option UpdatePayload :=
  if saveButtonDisabled st then none else some (buildUpdates st)

/-- The server state returned by `api.getSettings()`, as read by
`loadSettings` (`Settings.jsx` lines 55–68).  `none` models a
null/undefined field; `full_content_results` distinguishes `none`
(nullish, hits the `?? 3` default) from a present integer. -/
structure PersistedSettings where
  search_provider : Option String
  full_content_results : Option Nat
  council_models : Option (List String)
  chairman_model : Option String
deriving DecidableEq, Repr

/-- The state updates performed by `loadSettings` (`Settings.jsx` lines
59–62) on a successful `api.getSettings()`:

```js
setSelectedProvider(data.search_provider || 'duckduckgo');
setFullContentResults(data.full_content_results ?? 3);
setCouncilModels(data.council_models || []);
setChairmanModel(data.chairman_model || '');
```

`x || d` falls back on null/undefined and on the empty string (and on
the empty string `''` the fallback `''` coincides); `x ?? d` falls back
only on null/undefined; an empty array is truthy. -/
def applyLoadedSettings (st : SettingsState) (data : PersistedSettings) :
    SettingsState :=
  { st with
    selectedProvider :=
      match data.search_provider with
      | some s => if s = "" then "duckduckgo" else s
      | none => "duckduckgo"
    fullContentResults := data.full_content_results.getD 3
    councilModels := data.council_models.getD []
    chairmanModel := (data.chairman_model.getD "") }

/-- Outcome of the awaited `api.updateSettings` call inside
`handleSave`: success, with the server state that the subsequent
`loadSettings()` reload returns, or a thrown error. -/
inductive SaveOutcome where
  | ok (reloaded : PersistedSettings)
  | err

/-- `handleSave` from `Settings.jsx` lines 181–222, as a state
transition given the call's outcome.  On entry it sets `isSaving`,
clears `error` and `success`; on success it sets `success`, clears the
three secret buffers, and reloads settings from the server
(`applyLoadedSettings`); on a thrown error it sets the error message;
`finally` clears `isSaving` on both paths.  (The delayed
`setTimeout(() => setSuccess(false), 3000)` and the possibility of the
reload itself failing are outside this transition.) -/
def handleSave (st : SettingsState) (outcome : SaveOutcome) : SettingsState :=
  let st1 := { st with isSaving := true, error := none, success := false }
  match outcome with
  | SaveOutcome.ok data =>
    let st2 := { st1 with
      success := true
      tavilyApiKey := ""
      braveApiKey := ""
      openrouterApiKey := "" }
    { applyLoadedSettings st2 data with isSaving := false }
  | SaveOutcome.err =>
    { st1 with error := some "Failed to save settings", isSaving := false }

/-- A concrete draft state used to instantiate theorems: the Tavily
provider selected, all secret buffers untouched (empty), a one-member
council. -/
def exampleDraft : SettingsState :=
  { selectedProvider := "tavily"
    fullContentResults := 3
    tavilyApiKey := ""
    braveApiKey := ""
    openrouterApiKey := ""
    councilModels := ["openai/gpt-4"]
    chairmanModel := "openai/gpt-4"
    isSaving := false
    error := none
    success := false }

/-- A concrete two-entry catalog used to instantiate theorems: one free
model and one paid model. -/
def exampleCatalog : List Model :=
  [⟨"x/free-model", "Free Model", true⟩, ⟨"x/paid-model", "Paid Model", false⟩]

/-! ## Helper lemmas -/

/-- `jsSplit` on a list free of the separator returns the single segment. -/
theorem jsSplit_of_not_mem {sep : Char} {A : List Char} (h : sep ∉ A) :
    jsSplit sep A = [A] := by
  induction A with
  | nil => rfl
  | cons c cs ih =>
    rw [List.mem_cons, not_or] at h
    simp only [jsSplit, if_neg (Ne.symm h.1), ih h.2]

/-- `jsSplit` peels off a separator-free segment before a separator. -/
theorem jsSplit_append {sep : Char} {A : List Char} (rest : List Char) (h : sep ∉ A) :
    jsSplit sep (A ++ sep :: rest) = A :: jsSplit sep rest := by
  induction A with
  | nil => simp [jsSplit]
  | cons c cs ih =>
    rw [List.mem_cons, not_or] at h
    simp only [List.cons_append, jsSplit, if_neg (Ne.symm h.1), List.append_eq, ih h.2]

/-- A character-list string built from a non-empty list is not `""`. -/
theorem mkString_ne_empty {l : List Char} (h : l ≠ []) : (⟨l⟩ : String) ≠ "" := by
  intro he
  exact h (String.ext_iff.mp he)

/-! ## Claim theorems -/

/-- C1.  The claim states that `deAnonymizeText` matches labels as whole
tokens (word-boundary match), never by naive substring replacement, so a
label whose text is a substring of another label's text is not corrupted
by an earlier replacement.  The code instead performs sequential global
regex replacement of each label.  At text `"Response AB"` with mapping
`{"Response A" ↦ "x/m1", "Response AB" ↦ "x/m2"}`, the earlier label
`"Response A"` matches inside the later label's occurrence, producing
`"**m1**B"` instead of the whole-token result `"**m2**"`: the mapped
label `"Response AB"` is corrupted, exactly the class of bug the claim
(and the spec's design note) says the implementation must avoid. -/
theorem deAnonymize_c1_failing_input :
    deAnonymizeText "Response AB"
        (some [("Response A", "x/m1"), ("Response AB", "x/m2")]) = "**m1**B" ∧
      deAnonymizeText "Response AB"
        (some [("Response A", "x/m1"), ("Response AB", "x/m2")]) ≠ "**m2**" := by
  constructor
  · rfl
  · decide

/-- C2, counterexample.  The claim says short-name derivation returns
"the substring after the first `/`".  At id `"a/b/c"` the code
(`getShortModelName`, which takes element 1 of `split('/')`) returns
`"b"`, while the substring after the first `/` (`specShortModelName`,
modelled from the spec's words) is `"b/c"`. -/
theorem shortName_c2_counterexample :
    getShortModelName (some "a/b/c") = "b" ∧
      specShortModelName (some "a/b/c") = "b/c" ∧ ("b" : String) ≠ "b/c" := by
  refine ⟨rfl, rfl, by decide⟩

/-- C2, amended.  Short-name derivation returns: for a null or empty id,
`"Unknown"`; if the id contains `/`, the segment strictly between the
first and the second `/` (element 1 of splitting on `/`), or the whole
id unchanged when that segment is empty (second `/` immediately after
the first, or the id ending at the first `/`); else if it contains `:`,
likewise the segment between the first and the second `:`, or the whole
id unchanged when that segment is empty; else the id unchanged.  In
particular `"a/b"` yields `"b"`, `"a:b"` yields `"b"`, `"a"` yields
`"a"`, and the multi-separator ids `"a/b/c"` and `"a:b:c"` both yield
`"b"`, not the substring after the first separator. -/
theorem shortName_c2_amended :
    getShortModelName none = "Unknown"
    ∧ getShortModelName (some "") = "Unknown"
    ∧ (∀ A B C : List Char, '/' ∉ A → '/' ∉ B → B ≠ [] →
        getShortModelName (some ⟨A ++ '/' :: (B ++ '/' :: C)⟩) = ⟨B⟩)
    ∧ (∀ A B : List Char, '/' ∉ A → '/' ∉ B → B ≠ [] →
        getShortModelName (some ⟨A ++ '/' :: B⟩) = ⟨B⟩)
    ∧ (∀ A R : List Char, '/' ∉ A →
        getShortModelName (some ⟨A ++ '/' :: '/' :: R⟩) = ⟨A ++ '/' :: '/' :: R⟩)
    ∧ (∀ A : List Char, '/' ∉ A → A ≠ [] →
        getShortModelName (some ⟨A ++ ['/']⟩) = ⟨A ++ ['/']⟩)
    ∧ (∀ A B C : List Char, '/' ∉ A → '/' ∉ B → '/' ∉ C →
        ':' ∉ A → ':' ∉ B → B ≠ [] →
        getShortModelName (some ⟨A ++ ':' :: (B ++ ':' :: C)⟩) = ⟨B⟩)
    ∧ (∀ A B : List Char, '/' ∉ A → '/' ∉ B → ':' ∉ A → ':' ∉ B → B ≠ [] →
        getShortModelName (some ⟨A ++ ':' :: B⟩) = ⟨B⟩)
    ∧ (∀ A R : List Char, '/' ∉ A → '/' ∉ R → ':' ∉ A →
        getShortModelName (some ⟨A ++ ':' :: ':' :: R⟩) = ⟨A ++ ':' :: ':' :: R⟩)
    ∧ (∀ A : List Char, '/' ∉ A → ':' ∉ A → A ≠ [] →
        getShortModelName (some ⟨A ++ [':']⟩) = ⟨A ++ [':']⟩)
    ∧ (∀ s : String, s ≠ "" → '/' ∉ s.data → ':' ∉ s.data →
        getShortModelName (some s) = s) := by
  refine ⟨rfl, rfl, ?_, ?_, ?_, ?_, ?_, ?_, ?_, ?_, ?_⟩
  · intro A B C hA hB hBne
    have hne : (⟨A ++ '/' :: (B ++ '/' :: C)⟩ : String) ≠ "" :=
      mkString_ne_empty (by simp)
    have hmem : '/' ∈ A ++ '/' :: (B ++ '/' :: C) := by simp
    have hsplit : jsSplit '/' (A ++ '/' :: (B ++ '/' :: C)) = A :: B :: jsSplit '/' C := by
      rw [jsSplit_append _ hA, jsSplit_append _ hB]
    simp [getShortModelName, List.contains, hne, hmem, hsplit, hBne]
  · intro A B hA hB hBne
    have hne : (⟨A ++ '/' :: B⟩ : String) ≠ "" := mkString_ne_empty (by simp)
    have hmem : '/' ∈ A ++ '/' :: B := by simp
    have hsplit : jsSplit '/' (A ++ '/' :: B) = A :: [B] := by
      rw [jsSplit_append _ hA, jsSplit_of_not_mem hB]
    simp [getShortModelName, List.contains, hne, hmem, hsplit, hBne]
  · intro A R hA
    have hne : (⟨A ++ '/' :: '/' :: R⟩ : String) ≠ "" := mkString_ne_empty (by simp)
    have hmem : '/' ∈ A ++ '/' :: '/' :: R := by simp
    have hsplit : jsSplit '/' (A ++ '/' :: '/' :: R) = A :: [] :: jsSplit '/' R := by
      rw [jsSplit_append _ hA]
      simp [jsSplit]
    simp [getShortModelName, List.contains, hne, hmem, hsplit]
  · intro A hA hAne
    have hne : (⟨A ++ ['/']⟩ : String) ≠ "" := mkString_ne_empty (by simp)
    have hmem : '/' ∈ A ++ ['/'] := by simp
    have hsplit : jsSplit '/' (A ++ ['/']) = A :: [[]] := by
      have : A ++ ['/'] = A ++ '/' :: ([] : List Char) := rfl
      rw [this, jsSplit_append _ hA]
      rfl
    simp [getShortModelName, List.contains, hne, hmem, hsplit]
  · intro A B C hsA hsB hsC hcA hcB hBne
    have hne : (⟨A ++ ':' :: (B ++ ':' :: C)⟩ : String) ≠ "" :=
      mkString_ne_empty (by simp)
    have hnoslash : '/' ∉ A ++ ':' :: (B ++ ':' :: C) := by
      simp [hsA, hsB, hsC]
    have hmem : ':' ∈ A ++ ':' :: (B ++ ':' :: C) := by simp
    have hsplit : jsSplit ':' (A ++ ':' :: (B ++ ':' :: C)) = A :: B :: jsSplit ':' C := by
      rw [jsSplit_append _ hcA, jsSplit_append _ hcB]
    simp [getShortModelName, List.contains, hne, hnoslash, hmem, hsplit, hBne]
  · intro A B hsA hsB hcA hcB hBne
    have hne : (⟨A ++ ':' :: B⟩ : String) ≠ "" := mkString_ne_empty (by simp)
    have hnoslash : '/' ∉ A ++ ':' :: B := by
      simp [hsA, hsB]
    have hmem : ':' ∈ A ++ ':' :: B := by simp
    have hsplit : jsSplit ':' (A ++ ':' :: B) = A :: [B] := by
      rw [jsSplit_append _ hcA, jsSplit_of_not_mem hcB]
    simp [getShortModelName, List.contains, hne, hnoslash, hmem, hsplit, hBne]
  · intro A R hsA hsR hcA
    have hne : (⟨A ++ ':' :: ':' :: R⟩ : String) ≠ "" := mkString_ne_empty (by simp)
    have hnoslash : '/' ∉ A ++ ':' :: ':' :: R := by
      simp [hsA, hsR]
    have hmem : ':' ∈ A ++ ':' :: ':' :: R := by simp
    have hsplit : jsSplit ':' (A ++ ':' :: ':' :: R) = A :: [] :: jsSplit ':' R := by
      rw [jsSplit_append _ hcA]
      simp [jsSplit]
    simp [getShortModelName, List.contains, hne, hnoslash, hmem, hsplit]
  · intro A hsA hcA hAne
    have hne : (⟨A ++ [':']⟩ : String) ≠ "" := mkString_ne_empty (by simp)
    have hnoslash : '/' ∉ A ++ [':'] := by
      simp [hsA]
    have hmem : ':' ∈ A ++ [':'] := by simp
    have hsplit : jsSplit ':' (A ++ [':']) = A :: [[]] := by
      have : A ++ [':'] = A ++ ':' :: ([] : List Char) := rfl
      rw [this, jsSplit_append _ hcA]
      rfl
    simp [getShortModelName, List.contains, hne, hnoslash, hmem, hsplit]
  · intro s hne h1 h2
    simp [getShortModelName, List.contains, hne, h1, h2]

/-- C2, witness: the amended theorem applied at concrete ids that
distinguish the amended rule from the original claim's rule.
`"a/b/c"` yields `"b"` (segment between the first and second slash, not
`"b/c"`), `"a:b:c"` yields `"b"` (segment between the first and second
colon, not `"b:c"`), and `"a//b"` yields itself unchanged (empty
segment falls back to the whole id, not to `"/b"`). -/
theorem shortName_c2_amended_witness :
    getShortModelName (some ⟨['a'] ++ '/' :: (['b'] ++ '/' :: ['c'])⟩) = ⟨['b']⟩ ∧
      getShortModelName (some ⟨['a'] ++ ':' :: (['b'] ++ ':' :: ['c'])⟩) = ⟨['b']⟩ ∧
      getShortModelName (some ⟨['a'] ++ '/' :: '/' :: ['b']⟩) =
        ⟨['a'] ++ '/' :: '/' :: ['b']⟩ :=
  ⟨shortName_c2_amended.2.2.1 ['a'] ['b'] ['c'] (by decide) (by decide) (by decide),
   shortName_c2_amended.2.2.2.2.2.2.1 ['a'] ['b'] ['c'] (by decide) (by decide)
     (by decide) (by decide) (by decide) (by decide),
   shortName_c2_amended.2.2.2.2.1 ['a'] ['b'] (by decide)⟩

/-- C9.  The active-tab reset effect of Stage1 and Stage2: whenever the
backing collection is non-empty and its length is at most the current
index (the index would be out of range, e.g. after the collection
shrank), the index is reset to the last valid index `length - 1`; while
the current index is still in range (in particular while the collection
grows) the index is never reset. -/
theorem activeTab_c9_clamp {α β : Type} (rs : List α) (qs : List β) (k : Nat) :
    (0 < rs.length → rs.length ≤ k →
        stage1ResetActiveTab (some rs) k = rs.length - 1)
    ∧ (k < rs.length → stage1ResetActiveTab (some rs) k = k)
    ∧ (0 < qs.length → qs.length ≤ k →
        stage2ResetActiveTab (some qs) k = qs.length - 1)
    ∧ (k < qs.length → stage2ResetActiveTab (some qs) k = k) := by
  refine ⟨fun h1 h2 => ?_, fun h => ?_, fun h1 h2 => ?_, fun h => ?_⟩
  · simp only [stage1ResetActiveTab]
    rw [if_pos ⟨h1, h2⟩]
  · simp only [stage1ResetActiveTab]
    rw [if_neg (by omega)]
  · simp only [stage2ResetActiveTab]
    rw [if_pos ⟨h1, h2⟩]
  · simp only [stage2ResetActiveTab]
    rw [if_neg (by omega)]

/-- C9, witness: a collection that shrank to two entries while the
active index was 5 resets to index 1; a one-entry collection with active
index 0 stays at 0. -/
theorem activeTab_c9_clamp_witness :
    stage1ResetActiveTab (some [0, 1]) 5 = 1 ∧
      stage2ResetActiveTab (some [true]) 0 = 0 :=
  ⟨(activeTab_c9_clamp [0, 1] [true] 5).1 (by decide) (by decide),
   (activeTab_c9_clamp [0, 1] [true] 0).2.2.2 (by decide)⟩

/-- The secret-field inclusion expression of `buildUpdates` is `none`
exactly when the buffer is empty or starts with the bullet character. -/
theorem secretOpt_none_iff (buf : String) :
    ((if buf ≠ "" ∧ jsStartsWithChar buf '•' = false then some buf else none) = none
      ↔ (buf = "" ∨ jsStartsWithChar buf '•' = true)) := by
  by_cases h : buf ≠ "" ∧ jsStartsWithChar buf '•' = false
  · rw [if_pos h]
    constructor
    · intro hc
      exact absurd hc (by simp)
    · rintro (hc | hc)
      · exact absurd hc h.1
      · rw [h.2] at hc
        exact absurd hc (by simp)
  · rw [if_neg h]
    constructor
    · intro _
      by_cases hb : buf = ""
      · exact Or.inl hb
      · right
        cases hx : jsStartsWithChar buf '•'
        · exact absurd ⟨hb, hx⟩ h
        · rfl
    · intro _
      rfl

/-- The secret-field inclusion expression of `buildUpdates` is either
`none` or the buffer itself. -/
theorem secretOpt_val (buf : String) :
    (if buf ≠ "" ∧ jsStartsWithChar buf '•' = false then some buf else none) = none ∨
      (if buf ≠ "" ∧ jsStartsWithChar buf '•' = false then some buf else none)
        = some buf := by
  by_cases h : buf ≠ "" ∧ jsStartsWithChar buf '•' = false
  · right
    rw [if_pos h]
  · left
    rw [if_neg h]

/-- C3, counterexample.  The claim says a secret field is included iff
its buffer is non-empty and not equal to the masking placeholder.  The
buffer `"•x"` is non-empty and differs from the placeholder (so the
claim requires it to be included), yet the code omits it, because the
actual test is `startsWith('•')`, not equality with the placeholder. -/
theorem secretFields_c3_counterexample :
    specIncludesSecret "•x" = true ∧
      (buildUpdates { exampleDraft with tavilyApiKey := "•x" }).tavily_api_key
        = none := by
  refine ⟨by decide, by decide⟩

/-- C3, amended.  A secret key field is included in the update payload
iff its draft buffer is non-empty and does not start with the bullet
character `'•'` (the first character of the masking placeholder); when
included, the sent value is exactly the buffer.  In particular a save
in which all three secret buffers are untouched (empty) — e.g. only the
provider field was changed — sends a payload containing no secret
fields. -/
theorem secretFields_c3_amended (st : SettingsState) :
    ((buildUpdates st).tavily_api_key = none ↔
        (st.tavilyApiKey = "" ∨ jsStartsWithChar st.tavilyApiKey '•' = true))
    ∧ ((buildUpdates st).tavily_api_key = none ∨
        (buildUpdates st).tavily_api_key = some st.tavilyApiKey)
    ∧ ((buildUpdates st).brave_api_key = none ↔
        (st.braveApiKey = "" ∨ jsStartsWithChar st.braveApiKey '•' = true))
    ∧ ((buildUpdates st).brave_api_key = none ∨
        (buildUpdates st).brave_api_key = some st.braveApiKey)
    ∧ ((buildUpdates st).openrouter_api_key = none ↔
        (st.openrouterApiKey = "" ∨ jsStartsWithChar st.openrouterApiKey '•' = true))
    ∧ ((buildUpdates st).openrouter_api_key = none ∨
        (buildUpdates st).openrouter_api_key = some st.openrouterApiKey)
    ∧ (st.tavilyApiKey = "" → st.braveApiKey = "" → st.openrouterApiKey = "" →
        (buildUpdates st).tavily_api_key = none
        ∧ (buildUpdates st).brave_api_key = none
        ∧ (buildUpdates st).openrouter_api_key = none) :=
  ⟨secretOpt_none_iff st.tavilyApiKey, secretOpt_val st.tavilyApiKey,
   secretOpt_none_iff st.braveApiKey, secretOpt_val st.braveApiKey,
   secretOpt_none_iff st.openrouterApiKey, secretOpt_val st.openrouterApiKey,
   fun h1 h2 h3 => by simp [buildUpdates, h1, h2, h3]⟩

/-- C3, witness: the concrete draft (all secret buffers empty, only the
provider chosen) sends no secret fields. -/
theorem secretFields_c3_amended_witness :
    (buildUpdates exampleDraft).tavily_api_key = none
    ∧ (buildUpdates exampleDraft).brave_api_key = none
    ∧ (buildUpdates exampleDraft).openrouter_api_key = none :=
  (secretFields_c3_amended exampleDraft).2.2.2.2.2.2 rfl rfl rfl

/-- C7.  Whenever the currently selected chairman id belongs to no
non-free catalog entry (in particular when it is a legacy free model),
the chairman model list contains no free model: every eligible entry
comes from a catalog model with `is_free = false`, the current value is
rendered exactly once, its label carries the "(not recommended)"
annotation, and every other rendered option is a non-free catalog
model — so the free value is not offered as a new choice. -/
theorem chairman_c7_no_free_models (catalog : List Model) (chair : String)
    (hfree : ∀ m ∈ catalog, m.id = chair → m.is_free = true) :
    (∀ m ∈ chairmanModels catalog, m.is_free = false)
    ∧ ((chairmanOptionList catalog chair).filter
        (fun o => o.value == chair)).length = 1
    ∧ (∀ o ∈ chairmanOptionList catalog chair, o.value = chair →
        ∃ base, o.label = base ++ " (not recommended)")
    ∧ (∀ o ∈ chairmanOptionList catalog chair, o.value ≠ chair →
        ∃ m ∈ catalog, m.is_free = false ∧ m.id = o.value) := by
  have hmem : ∀ m ∈ chairmanModels catalog, m ∈ catalog ∧ m.is_free = false := by
    intro m hm
    simp only [chairmanModels, List.mem_filter] at hm
    exact ⟨hm.1, by simpa using hm.2⟩
  have hne : ∀ m ∈ chairmanModels catalog, ¬((fun m => m.id == chair) m = true) := by
    intro m hm hbeq
    have hid : m.id = chair := by simpa using hbeq
    have hf := hfree m (hmem m hm).1 hid
    rw [(hmem m hm).2] at hf
    exact absurd hf (by simp)
  have hnofind : (chairmanModels catalog).find? (fun m => m.id == chair) = none :=
    List.find?_eq_none.mpr hne
  have hopt : chairmanOptionList catalog chair =
      (chairmanModels catalog).map (fun m => ⟨m.id, m.name⟩) ++
        [⟨chair,
          (match catalog.find? (fun m => m.id == chair) with
           | some m => if m.name = "" then chair else m.name
           | none => chair) ++ " (not recommended)"⟩] := by
    unfold chairmanOptionList
    rw [hnofind]
    rfl
  refine ⟨fun m hm => (hmem m hm).2, ?_, ?_, ?_⟩
  · rw [hopt, List.filter_append, List.length_append]
    have h1 : ((chairmanModels catalog).map
        (fun m => (⟨m.id, m.name⟩ : SelectOption))).filter
          (fun o => o.value == chair) = [] := by
      rw [List.filter_eq_nil_iff]
      intro o ho
      rw [List.mem_map] at ho
      obtain ⟨m, hm, rfl⟩ := ho
      exact hne m hm
    rw [h1]
    simp
  · intro o ho hov
    rw [hopt, List.mem_append] at ho
    rcases ho with ho | ho
    · rw [List.mem_map] at ho
      obtain ⟨m, hm, rfl⟩ := ho
      exact absurd (show (fun m => m.id == chair) m = true by simpa using hov)
        (hne m hm)
    · rw [List.mem_singleton] at ho
      subst ho
      exact ⟨_, rfl⟩
  · intro o ho hov
    rw [hopt, List.mem_append] at ho
    rcases ho with ho | ho
    · rw [List.mem_map] at ho
      obtain ⟨m, hm, rfl⟩ := ho
      exact ⟨m, (hmem m hm).1, (hmem m hm).2, rfl⟩
    · rw [List.mem_singleton] at ho
      subst ho
      exact absurd rfl hov

/-- C7, witness: in the concrete catalog with a legacy free chairman
value, the rendered chairman list carries that value exactly once. -/
theorem chairman_c7_no_free_models_witness :
    ((chairmanOptionList exampleCatalog "x/free-model").filter
        (fun o => o.value == "x/free-model")).length = 1 :=
  (chairman_c7_no_free_models exampleCatalog "x/free-model" (by decide)).2.1

/-- C4.  Whenever the draft's council model sequence is empty, the save
button is disabled, so a click issues no `api.updateSettings` call at
all: saving is refused entirely. -/
theorem save_c4_empty_roster_refused (st : SettingsState)
    (h : st.councilModels = []) : clickSave st = none := by
  simp [clickSave, saveButtonDisabled, h]

/-- C4, witness: the concrete draft with an emptied roster; clicking
save issues no call. -/
theorem save_c4_empty_roster_refused_witness :
    clickSave { exampleDraft with councilModels := [] } = none :=
  save_c4_empty_roster_refused _ rfl

/-- C5.  When exactly one council member remains, the remove-member
button is disabled, so a click at any index leaves the roster
unchanged: every removal preserves the at-least-one-member invariant. -/
theorem removeMember_c5_singleton_noop (roster : List String) (i : Nat)
    (h : roster.length = 1) : clickRemoveMember roster i = roster := by
  simp [clickRemoveMember, removeMemberDisabled, h]

/-- C5, witness: removing from a one-member roster leaves it
unchanged. -/
theorem removeMember_c5_singleton_noop_witness :
    clickRemoveMember ["openai/gpt-4"] 0 = ["openai/gpt-4"] :=
  removeMember_c5_singleton_noop ["openai/gpt-4"] 0 rfl

/-- C6, counterexample.  The claim says `setMember` at an out-of-bounds
index is a silent no-op.  In JS, `updated[index] = modelId` at
`index = length` appends: on the one-element roster `["a"]`, setting
index 1 yields the two-element roster `["a", "b"]`, not the unchanged
roster. -/
theorem setMember_c6_counterexample :
    handleCouncilModelChange [JsVal.str "a"] 1 "b" = [JsVal.str "a", JsVal.str "b"] ∧
      handleCouncilModelChange [JsVal.str "a"] 1 "b" ≠ [JsVal.str "a"] := by
  refine ⟨rfl, by decide⟩

/-- C6, amended.  `setMember(index, modelId)` always stores `modelId` at
position `index`: within bounds it replaces only the id at that index
(all other positions unchanged, duplicates permitted, length
preserved); at an out-of-bounds index it extends the array to length
`index + 1` (the skipped positions becoming `undefined` holes), leaving
every previously existing position unchanged.  The resulting length is
`max length (index + 1)`. -/
theorem setMember_c6_amended (prev : List JsVal) (i : Nat) (m : String) :
    (handleCouncilModelChange prev i m).length = max prev.length (i + 1)
    ∧ (handleCouncilModelChange prev i m)[i]? = some (JsVal.str m)
    ∧ (∀ j, j ≠ i → j < prev.length →
        (handleCouncilModelChange prev i m)[j]? = prev[j]?) := by
  unfold handleCouncilModelChange
  by_cases h : i < prev.length
  · rw [if_pos h]
    refine ⟨?_, ?_, ?_⟩
    · rw [List.length_set]
      omega
    · exact List.getElem?_set_self h
    · intro j hj hjl
      exact List.getElem?_set_ne (by omega)
  · rw [if_neg h]
    refine ⟨?_, ?_, ?_⟩
    · simp only [List.length_append, List.length_replicate, List.length_cons,
        List.length_nil]
      omega
    · rw [List.append_assoc, List.getElem?_append_right (by omega)]
      rw [List.getElem?_append_right (by simp only [List.length_replicate]; omega)]
      simp only [List.length_replicate]
      have he : i - prev.length - (i - prev.length) = 0 := by omega
      rw [he]
      rfl
    · intro j hj hjl
      rw [List.append_assoc, List.getElem?_append_left hjl]

/-- C6, witness: within bounds, setting index 0 leaves index 1
unchanged. -/
theorem setMember_c6_amended_witness :
    (handleCouncilModelChange [JsVal.str "a", JsVal.str "c"] 0 "b")[1]? =
      some (JsVal.str "c") :=
  (setMember_c6_amended [JsVal.str "a", JsVal.str "c"] 0 "b").2.2 1
    (by decide) (by decide)

/-- C10.  Every save invocation that actually issues the update call
sends a payload whose four non-secret fields — `search_provider`,
`full_content_results`, `council_models`, `chairman_model` — carry the
draft's current values, unconditionally. -/
theorem savePayload_c10_nonsecret_fields (st : SettingsState) (p : UpdatePayload)
    (h : clickSave st = some p) :
    p.search_provider = st.selectedProvider
    ∧ p.full_content_results = st.fullContentResults
    ∧ p.council_models = st.councilModels
    ∧ p.chairman_model = st.chairmanModel := by
  by_cases hd : saveButtonDisabled st = true
  · simp [clickSave, hd] at h
  · simp [clickSave, hd] at h
    rw [← h]
    exact ⟨rfl, rfl, rfl, rfl⟩

/-- C10, witness: saving the concrete draft sends its provider value. -/
theorem savePayload_c10_nonsecret_fields_witness :
    (buildUpdates exampleDraft).search_provider = "tavily" :=
  (savePayload_c10_nonsecret_fields exampleDraft (buildUpdates exampleDraft)
    (by decide)).1

/-- C8.  On a successful save the three secret-input buffers are
cleared and the settings fields are reloaded from the server: the
resulting provider, full-content count, roster and chairman are exactly
what `loadSettings` derives from the server data (independent of the
draft), `success` is set and the in-flight flag cleared.  On a save
failure the whole draft — secret buffers, provider, full-content count,
roster, chairman — keeps its values and only the error message is
surfaced, so the user can retry. -/
theorem saveResult_c8_success_and_failure (st : SettingsState)
    (data : PersistedSettings) :
    ((handleSave st (SaveOutcome.ok data)).tavilyApiKey = ""
      ∧ (handleSave st (SaveOutcome.ok data)).braveApiKey = ""
      ∧ (handleSave st (SaveOutcome.ok data)).openrouterApiKey = ""
      ∧ (handleSave st (SaveOutcome.ok data)).selectedProvider
          = (applyLoadedSettings st data).selectedProvider
      ∧ (handleSave st (SaveOutcome.ok data)).fullContentResults
          = (applyLoadedSettings st data).fullContentResults
      ∧ (handleSave st (SaveOutcome.ok data)).councilModels
          = (applyLoadedSettings st data).councilModels
      ∧ (handleSave st (SaveOutcome.ok data)).chairmanModel
          = (applyLoadedSettings st data).chairmanModel
      ∧ (handleSave st (SaveOutcome.ok data)).success = true
      ∧ (handleSave st (SaveOutcome.ok data)).isSaving = false)
    ∧ ((handleSave st SaveOutcome.err).tavilyApiKey = st.tavilyApiKey
      ∧ (handleSave st SaveOutcome.err).braveApiKey = st.braveApiKey
      ∧ (handleSave st SaveOutcome.err).openrouterApiKey = st.openrouterApiKey
      ∧ (handleSave st SaveOutcome.err).selectedProvider = st.selectedProvider
      ∧ (handleSave st SaveOutcome.err).fullContentResults = st.fullContentResults
      ∧ (handleSave st SaveOutcome.err).councilModels = st.councilModels
      ∧ (handleSave st SaveOutcome.err).chairmanModel = st.chairmanModel
      ∧ (handleSave st SaveOutcome.err).error = some "Failed to save settings"
      ∧ (handleSave st SaveOutcome.err).isSaving = false) :=
  ⟨⟨rfl, rfl, rfl, rfl, rfl, rfl, rfl, rfl, rfl⟩,
   rfl, rfl, rfl, rfl, rfl, rfl, rfl, rfl, rfl⟩

end LLMCouncil
